import Mathlib

/-!
Verification of `transmission_simple_assessment.py`.

The script's core is `compute_sums`: it sweeps tower offsets over
`range(-4000, 4001, int(span))`, derives for each offset a slant range,
a vertical angle and a horizontal angle, bins the horizontal angle into
10°-wide cells and collects the cells of the two categories
(`raw_angle > 3°` = main, otherwise side) into two sets; the result is
the pair of the two distinct-cell counts (each returned as the triple
`(count, count, float(count))`).  `classify_magnitude` maps the main
count to a severity label and line 172 of the script derives the
boolean `triggers_intermediate = (f3 >= 16)`.

Python's floating point arithmetic is embedded as real arithmetic; the
`ValueError` that `range` raises on a zero step (which happens exactly
when `int(span) == 0`, i.e. for `0 < span < 1`) is embedded by letting
`compute_sums` return `none`.
-/

/-- `math.radians`: degrees to radians. -/
noncomputable def radians (deg : ℝ) : ℝ := deg * Real.pi / 180

/-- `math.degrees`: radians to degrees. -/
noncomputable def degrees (rad : ℝ) : ℝ := rad * 180 / Real.pi

/-- Python `int(x)` on a float: truncation toward zero. -/
noncomputable def intTrunc (x : ℝ) : ℤ := if x < 0 then -⌊-x⌋ else ⌊x⌋

/-- The offset list `range(-4000, 4001, step)` of line 48 (for a nonzero
step; the zero-step `ValueError` is handled by the caller).  Python's
`range` with positive step `s` enumerates `⌈(stop-start)/s⌉` elements;
with a negative step and `start < stop` it is empty, which the
`Int.toNat` of the (then negative) length also yields. -/
def sweepOffsets (step : ℤ) : List ℤ :=
  (List.range ((4001 - -4000 + step - 1) / step).toNat).map fun k : ℕ => -4000 + (k : ℤ) * step

/-- Lines 6–24, `classify_magnitude`. -/
def classify_magnitude (value : ℤ) : String :=
  if value ≤ 7 then "Very low"
  else if value ≤ 14 then "Low"
  else if value ≤ 25 then "Moderate"
  else if value ≤ 36 then "High"
  else "Very high"

/-- Line 172: `triggers_intermediate = (f3 >= 16)`. -/
def triggers_intermediate (f3 : ℤ) : Bool := decide (16 ≤ f3)

/-- Line 49: `r = math.hypot(d, x)`. -/
noncomputable def slantRange (d : ℝ) (x : ℤ) : ℝ := Real.sqrt (d ^ 2 + (x : ℝ) ^ 2)

/-- Line 52: `raw_angle = math.degrees(math.atan(tower_height_m / r))`. -/
noncomputable def rawAngle (h d : ℝ) (x : ℤ) : ℝ :=
  degrees (Real.arctan (h / slantRange d x))

/-- Line 60: `phi_calc = math.degrees(math.atan(abs(x)/d))`. -/
noncomputable def phiCalc (d : ℝ) (x : ℤ) : ℝ := degrees (Real.arctan (|(x : ℝ)| / d))

/-- Line 61: `phi = 95 + phi_calc if x > 0 else 95 - phi_calc`
(the value before the clamp of line 62). -/
noncomputable def phiPre (d : ℝ) (x : ℤ) : ℝ :=
  if 0 < x then 95 + phiCalc d x else 95 - phiCalc d x

/-- Lines 57–62: the horizontal angle of the sample at offset `x`;
the central tower is pinned at `95.0`, every other sample is clamped
to `[0, 180]` by `phi = max(0, min(180, phi))`. -/
noncomputable def phi (d : ℝ) (x : ℤ) : ℝ :=
  if x = 0 then 95.0 else max 0 (min 180 (phiPre d x))

/-- Line 65: `cell = int(phi // 10)` (float floor division yields an
integral float, so `int` of it is exactly the floor). -/
noncomputable def cellOf (d : ℝ) (x : ℤ) : ℤ := ⌊phi d x / 10⌋

/-- Lines 49–69, one iteration of the sweep loop acting on the state
`(main_cells, side_cells)`: skip when `r <= 0` or `raw_angle < 0.1`,
otherwise add the cell to `main_cells` when `raw_angle > 3.0` and to
`side_cells` otherwise. -/
noncomputable def visitTower (h d : ℝ) (acc : Finset ℤ × Finset ℤ) (x : ℤ) :
    Finset ℤ × Finset ℤ :=
  if slantRange d x ≤ 0 then acc
  else if rawAngle h d x < 0.1 then acc
  else if 3.0 < rawAngle h d x then (insert (cellOf d x) acc.1, acc.2)
  else (acc.1, insert (cellOf d x) acc.2)

/-- The whole sweep loop of lines 45–69, starting from two empty sets. -/
noncomputable def sweepCells (h d : ℝ) (xs : List ℤ) : Finset ℤ × Finset ℤ :=
  xs.foldl (visitTower h d) (∅, ∅)

/-- Lines 26–74, `compute_sums`.  Returns `none` exactly when the
Python code raises (`range` with step `int(span) == 0`); otherwise
`some` of the two `(count, count, float(count))` triples. -/
noncomputable def compute_sums (tower_height_m span_between_towers_m tower_angle_deg : ℝ) :
    Option ((ℕ × ℕ × ℝ) × (ℕ × ℕ × ℝ)) :=
  let angle_radians := radians tower_angle_deg
  if |Real.tan angle_radians| < 1e-12 then some ((0, 0, 0.0), (0, 0, 0.0))
  else if intTrunc span_between_towers_m = 0 then none
  else
    let d := tower_height_m / Real.tan angle_radians
    let cells := sweepCells tower_height_m d (sweepOffsets (intTrunc span_between_towers_m))
    some ((cells.1.card, cells.1.card, (cells.1.card : ℝ)),
          (cells.2.card, cells.2.card, (cells.2.card : ℝ)))

/-- Lines 168–172 of the app: run `compute_sums`, then derive the
classification and the intermediate-assessment flag from `f3`. -/
noncomputable def assessment (tower_height span tower_angle : ℝ) :
    Option (ℕ × String × Bool) :=
  (compute_sums tower_height span tower_angle).map fun res =>
    (res.1.1, classify_magnitude res.1.1, triggers_intermediate res.1.1)

/-- Rank of a label in the severity order
Very low < Low < Moderate < High < Very high. -/
def labelRank (s : String) : ℕ :=
  if s = "Very low" then 0
  else if s = "Low" then 1
  else if s = "Moderate" then 2
  else if s = "High" then 3
  else 4

lemma labelRank_classify (m : ℤ) :
    labelRank (classify_magnitude m) =
      if m ≤ 7 then 0 else if m ≤ 14 then 1 else if m ≤ 25 then 2
      else if m ≤ 36 then 3 else 4 := by
  unfold classify_magnitude labelRank
  split_ifs <;> simp_all

/-- C1: `classify_magnitude` realizes the band table ('Very low' iff
m ≤ 7, 'Low' iff 8 ≤ m ≤ 14, 'Moderate' iff 15 ≤ m ≤ 25, 'High' iff
26 ≤ m ≤ 36, 'Very high' iff 37 ≤ m) and the label is monotone
non-decreasing in the severity order as the magnitude increases. -/
theorem classify_magnitude_bands_and_monotone (m : ℤ) :
    (classify_magnitude m = "Very low" ↔ m ≤ 7) ∧
    (classify_magnitude m = "Low" ↔ 8 ≤ m ∧ m ≤ 14) ∧
    (classify_magnitude m = "Moderate" ↔ 15 ≤ m ∧ m ≤ 25) ∧
    (classify_magnitude m = "High" ↔ 26 ≤ m ∧ m ≤ 36) ∧
    (classify_magnitude m = "Very high" ↔ 37 ≤ m) ∧
    ∀ n : ℤ, m ≤ n → labelRank (classify_magnitude m) ≤ labelRank (classify_magnitude n) := by
  refine ⟨?_, ?_, ?_, ?_, ?_, ?_⟩
  · unfold classify_magnitude; split_ifs <;> simp_all <;> omega
  · unfold classify_magnitude; split_ifs <;> simp_all <;> omega
  · unfold classify_magnitude; split_ifs <;> simp_all <;> omega
  · unfold classify_magnitude; split_ifs <;> simp_all <;> omega
  · unfold classify_magnitude; split_ifs <;> simp_all <;> omega
  · intro n hmn
    rw [labelRank_classify, labelRank_classify]
    split_ifs <;> omega

/-- Witness for C1: the bands and monotonicity at concrete magnitudes. -/
theorem classify_magnitude_bands_and_monotone_witness :
    classify_magnitude 7 = "Very low" ∧
    labelRank (classify_magnitude 15) ≤ labelRank (classify_magnitude 37) :=
  ⟨(classify_magnitude_bands_and_monotone 7).1.mpr (by norm_num),
   (classify_magnitude_bands_and_monotone 15).2.2.2.2.2 37 (by norm_num)⟩

/-- C2: the flag of line 172 holds exactly when the main magnitude is
at least 16; in particular it is false at 15 and true at 16. -/
theorem triggers_intermediate_iff (m : ℤ) :
    (triggers_intermediate m = true ↔ 16 ≤ m) ∧
    triggers_intermediate 15 = false ∧
    triggers_intermediate 16 = true := by
  refine ⟨?_, by decide, by decide⟩
  simp [triggers_intermediate]

lemma intTrunc_nonneg_eq_floor {x : ℝ} (hx : 0 ≤ x) : intTrunc x = ⌊x⌋ := by
  unfold intTrunc
  rw [if_neg (not_lt.mpr hx)]

lemma radians_zero : radians 0 = 0 := by unfold radians; ring

lemma radians_fortyfive : radians 45 = Real.pi / 4 := by unfold radians; ring

lemma radians_five : radians 5 = Real.pi / 36 := by unfold radians; ring

/-- C3: whenever the tangent of the elevation angle is below `1e-12`
in magnitude, `compute_sums` returns (does not raise) and both result
triples are all zero; the downstream classification is then
"Very low" and the intermediate-assessment flag is false. -/
theorem compute_sums_degenerate (h s θ : ℝ)
    (hdeg : |Real.tan (radians θ)| < 1e-12) :
    compute_sums h s θ = some ((0, 0, 0.0), (0, 0, 0.0)) ∧
    assessment h s θ = some (0, "Very low", false) := by
  have hc : compute_sums h s θ = some ((0, 0, 0.0), (0, 0, 0.0)) := by
    unfold compute_sums
    rw [if_pos hdeg]
  refine ⟨hc, ?_⟩
  unfold assessment
  rw [hc]
  simp [classify_magnitude, triggers_intermediate]

/-- Witness for C3: the degenerate scenario `elevationAngle = 0`. -/
theorem compute_sums_degenerate_witness :
    compute_sums 50 100 0 = some ((0, 0, 0.0), (0, 0, 0.0)) ∧
    assessment 50 100 0 = some (0, "Very low", false) :=
  compute_sums_degenerate 50 100 0
    (by rw [radians_zero, Real.tan_zero]; norm_num)

/-- C10: for a span strictly between 0 and 1 and a non-degenerate
elevation angle, `compute_sums` raises (`range` gets the step
`int(span) = 0`), embedded as the `none` result. -/
theorem compute_sums_small_span_raises (h s θ : ℝ)
    (hs0 : 0 < s) (hs1 : s < 1) (hdeg : 1e-12 ≤ |Real.tan (radians θ)|) :
    compute_sums h s θ = none := by
  unfold compute_sums
  rw [if_neg (not_lt.mpr hdeg), if_pos]
  rw [intTrunc_nonneg_eq_floor hs0.le, Int.floor_eq_zero_iff]
  exact ⟨hs0.le, hs1⟩

/-- Witness for C10: span `1/2` with a 45° elevation angle. -/
theorem compute_sums_small_span_raises_witness :
    compute_sums 50 (1/2) 45 = none :=
  compute_sums_small_span_raises 50 (1/2) 45 (by norm_num) (by norm_num)
    (by rw [radians_fortyfive, Real.tan_pi_div_four]; norm_num)

/-- C5: the sample at offset 0 has horizontal angle exactly 95 (no
clamp is applied there), and the sample at offset `x ≠ 0` has
horizontal angle `95 + degrees(atan(|x|/baseline))` for `x > 0` and
`95 - degrees(atan(|x|/baseline))` for `x < 0`, clamped to `[0, 180]`. -/
theorem phi_pinned_and_clamped (d : ℝ) (x : ℤ) :
    phi d 0 = 95 ∧
    (0 < x → phi d x = max 0 (min 180 (95 + degrees (Real.arctan (|(x : ℝ)| / d))))) ∧
    (x < 0 → phi d x = max 0 (min 180 (95 - degrees (Real.arctan (|(x : ℝ)| / d))))) := by
  refine ⟨by norm_num [phi], ?_, ?_⟩
  · intro hx
    unfold phi phiPre phiCalc
    rw [if_neg (by omega), if_pos hx]
  · intro hx
    unfold phi phiPre phiCalc
    rw [if_neg (by omega), if_neg (by omega)]

/-- Witness for C5: the pinned centre and both signs at `x = ±500`. -/
theorem phi_pinned_and_clamped_witness :
    phi 571 0 = 95 ∧
    phi 571 500 = max 0 (min 180 (95 + degrees (Real.arctan (|((500 : ℤ) : ℝ)| / 571)))) ∧
    phi 571 (-500) = max 0 (min 180 (95 - degrees (Real.arctan (|((-500 : ℤ) : ℝ)| / 571)))) :=
  ⟨(phi_pinned_and_clamped 571 500).1,
   (phi_pinned_and_clamped 571 500).2.1 (by norm_num),
   (phi_pinned_and_clamped 571 (-500)).2.2 (by norm_num)⟩

lemma mem_sweepOffsets {t : ℤ} (ht : 1 ≤ t) {y : ℤ} :
    y ∈ sweepOffsets t ↔ (∃ k : ℕ, y = -4000 + (k : ℤ) * t) ∧ y ≤ 4000 := by
  have ht0 : (0 : ℤ) < t := ht
  have hlen : (4001 - -4000 + t - 1) / t = 8000 / t + 1 := by
    have h8 : (4001 - -4000 + t - 1 : ℤ) = 8000 + 1 * t := by ring
    rw [h8, Int.add_mul_ediv_right _ _ (by omega)]
  constructor
  · intro hy
    obtain ⟨k, hk, hke⟩ := List.mem_map.mp hy
    rw [List.mem_range, hlen] at hk
    refine ⟨⟨k, hke.symm⟩, ?_⟩
    have hk' : (k : ℤ) < 8000 / t + 1 := Int.lt_toNat.mp hk
    have hmul : (k : ℤ) * t ≤ 8000 := (Int.le_ediv_iff_mul_le ht0).mp (by omega)
    rw [← hke]
    linarith
  · rintro ⟨⟨k, rfl⟩, hy⟩
    refine List.mem_map.mpr ⟨k, ?_, rfl⟩
    rw [List.mem_range, hlen]
    have hmul : (k : ℤ) * t ≤ 8000 := by linarith
    have hk : (k : ℤ) ≤ 8000 / t := (Int.le_ediv_iff_mul_le ht0).mpr hmul
    exact Int.lt_toNat.mpr (by omega)

lemma intTrunc_ge_one {s : ℝ} (hs : 1 ≤ s) : 1 ≤ intTrunc s := by
  rw [intTrunc_nonneg_eq_floor (by linarith)]
  exact Int.le_floor.mpr (by exact_mod_cast hs)

/-- C7: for a span of at least 1, the sweep enumerates exactly the
fixed-step arithmetic sequence from −4000 with step `t = int(span)`
(truncation toward zero): every enumerated offset has the form
`−4000 + k·t` and never exceeds 4000, every such value is enumerated,
−4000 is always included, and 4000 is included exactly when `t`
divides 8000. -/
theorem sweep_offsets_enumeration (s : ℝ) (hs : 1 ≤ s) :
    (∀ y ∈ sweepOffsets (intTrunc s),
        (∃ k : ℕ, y = -4000 + (k : ℤ) * intTrunc s) ∧ y ≤ 4000) ∧
    (∀ y : ℤ, (∃ k : ℕ, y = -4000 + (k : ℤ) * intTrunc s) → y ≤ 4000 →
        y ∈ sweepOffsets (intTrunc s)) ∧
    (-4000 : ℤ) ∈ sweepOffsets (intTrunc s) ∧
    ((4000 : ℤ) ∈ sweepOffsets (intTrunc s) ↔ intTrunc s ∣ 8000) := by
  have ht : 1 ≤ intTrunc s := intTrunc_ge_one hs
  have ht0 : (0 : ℤ) < intTrunc s := ht
  refine ⟨?_, ?_, ?_, ?_⟩
  · intro y hy
    exact (mem_sweepOffsets ht).mp hy
  · intro y hk hy
    exact (mem_sweepOffsets ht).mpr ⟨hk, hy⟩
  · exact (mem_sweepOffsets ht).mpr ⟨⟨0, by ring⟩, by norm_num⟩
  · rw [mem_sweepOffsets ht]
    constructor
    · rintro ⟨⟨k, hk⟩, -⟩
      exact ⟨k, by linarith⟩
    · rintro hdvd
      refine ⟨⟨(8000 / intTrunc s).toNat, ?_⟩, le_refl _⟩
      have hnn : (0 : ℤ) ≤ 8000 / intTrunc s := Int.ediv_nonneg (by norm_num) ht0.le
      rw [Int.toNat_of_nonneg hnn, Int.ediv_mul_cancel hdvd]
      ring

/-- Witness for C7: span 100 (step 100, which divides 8000). -/
theorem sweep_offsets_enumeration_witness :
    (∀ y ∈ sweepOffsets (intTrunc 100),
        (∃ k : ℕ, y = -4000 + (k : ℤ) * intTrunc 100) ∧ y ≤ 4000) ∧
    (∀ y : ℤ, (∃ k : ℕ, y = -4000 + (k : ℤ) * intTrunc 100) → y ≤ 4000 →
        y ∈ sweepOffsets (intTrunc 100)) ∧
    (-4000 : ℤ) ∈ sweepOffsets (intTrunc 100) ∧
    ((4000 : ℤ) ∈ sweepOffsets (intTrunc 100) ↔ intTrunc 100 ∣ 8000) :=
  sweep_offsets_enumeration 100 (by norm_num)

/-- C8: in the scenario towerHeight = 50, span = 100,
elevationAngle = 5, samples at offsets `x` and `−x` have the same
vertical angle, and (for `x > 0`) their pre-clamp horizontal angles
are `95 + k` and `95 − k` for the same `k = phiCalc`. -/
theorem scenario_symmetry (x : ℤ)
    (hx : x ∈ sweepOffsets (intTrunc 100))
    (hx' : -x ∈ sweepOffsets (intTrunc 100)) :
    rawAngle 50 (50 / Real.tan (radians 5)) x
      = rawAngle 50 (50 / Real.tan (radians 5)) (-x) ∧
    (0 < x →
      phiPre (50 / Real.tan (radians 5)) x
        = 95 + phiCalc (50 / Real.tan (radians 5)) x ∧
      phiPre (50 / Real.tan (radians 5)) (-x)
        = 95 - phiCalc (50 / Real.tan (radians 5)) x) := by
  constructor
  · unfold rawAngle slantRange
    push_cast
    rw [neg_sq]
  · intro hxpos
    have hcalc : phiCalc (50 / Real.tan (radians 5)) (-x)
        = phiCalc (50 / Real.tan (radians 5)) x := by
      unfold phiCalc
      push_cast
      rw [abs_neg]
    refine ⟨?_, ?_⟩
    · unfold phiPre
      rw [if_pos hxpos]
    · unfold phiPre
      rw [if_neg (by omega), hcalc]

/-- Witness for C8: the pair of offsets ±500 of that scenario. -/
theorem scenario_symmetry_witness :
    rawAngle 50 (50 / Real.tan (radians 5)) 500
      = rawAngle 50 (50 / Real.tan (radians 5)) (-500) ∧
    phiPre (50 / Real.tan (radians 5)) 500
      = 95 + phiCalc (50 / Real.tan (radians 5)) 500 ∧
    phiPre (50 / Real.tan (radians 5)) (-500)
      = 95 - phiCalc (50 / Real.tan (radians 5)) 500 := by
  have ht : (1 : ℤ) ≤ intTrunc 100 := intTrunc_ge_one (by norm_num)
  have h1 : (500 : ℤ) ∈ sweepOffsets (intTrunc 100) := by
    refine (mem_sweepOffsets ht).mpr ⟨⟨45, ?_⟩, by norm_num⟩
    rw [intTrunc_nonneg_eq_floor (by norm_num)]
    norm_num
  have h2 : (-500 : ℤ) ∈ sweepOffsets (intTrunc 100) := by
    refine (mem_sweepOffsets ht).mpr ⟨⟨35, ?_⟩, by norm_num⟩
    rw [intTrunc_nonneg_eq_floor (by norm_num)]
    norm_num
  obtain ⟨ha, hb⟩ := scenario_symmetry 500 h1 (by exact_mod_cast h2)
  exact ⟨ha, hb (by norm_num)⟩

lemma foldl_visitTower_fst_mem (h d : ℝ) (xs : List ℤ) (acc : Finset ℤ × Finset ℤ) (c : ℤ) :
    c ∈ (xs.foldl (visitTower h d) acc).1 ↔
      c ∈ acc.1 ∨ ∃ x ∈ xs, 0 < slantRange d x ∧ 0.1 ≤ rawAngle h d x ∧
        3.0 < rawAngle h d x ∧ cellOf d x = c := by
  induction xs generalizing acc with
  | nil => simp
  | cons a l ih =>
    rw [List.foldl_cons, ih]
    unfold visitTower
    split_ifs with h1 h2 h3
    · simp only [List.mem_cons]
      constructor
      · rintro (hc | ⟨x, hx, hP⟩)
        · exact Or.inl hc
        · exact Or.inr ⟨x, Or.inr hx, hP⟩
      · rintro (hc | ⟨x, rfl | hx, hP⟩)
        · exact Or.inl hc
        · exact absurd hP.1 (by linarith)
        · exact Or.inr ⟨x, hx, hP⟩
    · simp only [List.mem_cons]
      constructor
      · rintro (hc | ⟨x, hx, hP⟩)
        · exact Or.inl hc
        · exact Or.inr ⟨x, Or.inr hx, hP⟩
      · rintro (hc | ⟨x, rfl | hx, hP⟩)
        · exact Or.inl hc
        · exact absurd hP.2.1 (by linarith)
        · exact Or.inr ⟨x, hx, hP⟩
    · simp only [Finset.mem_insert, List.mem_cons]
      constructor
      · rintro ((hc | hc) | ⟨x, hx, hP⟩)
        · exact Or.inr ⟨a, Or.inl rfl, by push_neg at h1 h2; exact ⟨h1, by linarith, h3, hc.symm⟩⟩
        · exact Or.inl hc
        · exact Or.inr ⟨x, Or.inr hx, hP⟩
      · rintro (hc | ⟨x, rfl | hx, hP⟩)
        · exact Or.inl (Or.inr hc)
        · exact Or.inl (Or.inl hP.2.2.2.symm)
        · exact Or.inr ⟨x, hx, hP⟩
    · simp only [List.mem_cons]
      constructor
      · rintro (hc | ⟨x, hx, hP⟩)
        · exact Or.inl hc
        · exact Or.inr ⟨x, Or.inr hx, hP⟩
      · rintro (hc | ⟨x, rfl | hx, hP⟩)
        · exact Or.inl hc
        · exact absurd hP.2.2.1 h3
        · exact Or.inr ⟨x, hx, hP⟩

lemma foldl_visitTower_snd_mem (h d : ℝ) (xs : List ℤ) (acc : Finset ℤ × Finset ℤ) (c : ℤ) :
    c ∈ (xs.foldl (visitTower h d) acc).2 ↔
      c ∈ acc.2 ∨ ∃ x ∈ xs, 0 < slantRange d x ∧ 0.1 ≤ rawAngle h d x ∧
        rawAngle h d x ≤ 3.0 ∧ cellOf d x = c := by
  induction xs generalizing acc with
  | nil => simp
  | cons a l ih =>
    rw [List.foldl_cons, ih]
    unfold visitTower
    split_ifs with h1 h2 h3
    · simp only [List.mem_cons]
      constructor
      · rintro (hc | ⟨x, hx, hP⟩)
        · exact Or.inl hc
        · exact Or.inr ⟨x, Or.inr hx, hP⟩
      · rintro (hc | ⟨x, rfl | hx, hP⟩)
        · exact Or.inl hc
        · exact absurd hP.1 (by linarith)
        · exact Or.inr ⟨x, hx, hP⟩
    · simp only [List.mem_cons]
      constructor
      · rintro (hc | ⟨x, hx, hP⟩)
        · exact Or.inl hc
        · exact Or.inr ⟨x, Or.inr hx, hP⟩
      · rintro (hc | ⟨x, rfl | hx, hP⟩)
        · exact Or.inl hc
        · exact absurd hP.2.1 (by linarith)
        · exact Or.inr ⟨x, hx, hP⟩
    · simp only [List.mem_cons]
      constructor
      · rintro (hc | ⟨x, hx, hP⟩)
        · exact Or.inl hc
        · exact Or.inr ⟨x, Or.inr hx, hP⟩
      · rintro (hc | ⟨x, rfl | hx, hP⟩)
        · exact Or.inl hc
        · exact absurd hP.2.2.1 (by linarith)
        · exact Or.inr ⟨x, hx, hP⟩
    · simp only [Finset.mem_insert, List.mem_cons]
      constructor
      · rintro ((hc | hc) | ⟨x, hx, hP⟩)
        · refine Or.inr ⟨a, Or.inl rfl, ?_⟩
          push_neg at h1 h2 h3
          exact ⟨h1, by linarith, h3, hc.symm⟩
        · exact Or.inl hc
        · exact Or.inr ⟨x, Or.inr hx, hP⟩
      · rintro (hc | ⟨x, rfl | hx, hP⟩)
        · exact Or.inl (Or.inr hc)
        · exact Or.inl (Or.inl hP.2.2.2.symm)
        · exact Or.inr ⟨x, hx, hP⟩

lemma mem_sweepCells_fst (h d : ℝ) (xs : List ℤ) (c : ℤ) :
    c ∈ (sweepCells h d xs).1 ↔
      ∃ x ∈ xs, 0 < slantRange d x ∧ 0.1 ≤ rawAngle h d x ∧
        3.0 < rawAngle h d x ∧ cellOf d x = c := by
  unfold sweepCells
  rw [foldl_visitTower_fst_mem]
  simp

lemma mem_sweepCells_snd (h d : ℝ) (xs : List ℤ) (c : ℤ) :
    c ∈ (sweepCells h d xs).2 ↔
      ∃ x ∈ xs, 0 < slantRange d x ∧ 0.1 ≤ rawAngle h d x ∧
        rawAngle h d x ≤ 3.0 ∧ cellOf d x = c := by
  unfold sweepCells
  rw [foldl_visitTower_snd_mem]
  simp

/-- C6: a cell lands in the main set exactly by way of a retained
sample (positive slant range, vertical angle at least the 0.1 floor)
whose vertical angle exceeds 3.0, and in the side set exactly by way
of a retained sample whose vertical angle lies in `[0.1, 3.0]`;
samples below the 0.1 floor contribute to neither set. -/
theorem sweep_category_assignment (h d : ℝ) (xs : List ℤ) (c : ℤ) :
    (c ∈ (sweepCells h d xs).1 ↔
      ∃ x ∈ xs, 0 < slantRange d x ∧ 0.1 ≤ rawAngle h d x ∧
        3.0 < rawAngle h d x ∧ cellOf d x = c) ∧
    (c ∈ (sweepCells h d xs).2 ↔
      ∃ x ∈ xs, 0 < slantRange d x ∧ 0.1 ≤ rawAngle h d x ∧
        rawAngle h d x ≤ 3.0 ∧ cellOf d x = c) :=
  ⟨mem_sweepCells_fst h d xs c, mem_sweepCells_snd h d xs c⟩

/-- Witness for C6: on an empty sweep no cell is occupied. -/
theorem sweep_category_assignment_witness : (5 : ℤ) ∉ (sweepCells 50 300 []).1 := fun hc => by
  obtain ⟨x, hx, -⟩ := ((sweep_category_assignment 50 300 [] 5).1).mp hc
  exact absurd hx (List.not_mem_nil x)

lemma phi_mem_Icc (d : ℝ) (x : ℤ) : 0 ≤ phi d x ∧ phi d x ≤ 180 := by
  unfold phi
  split_ifs
  · norm_num
  · constructor
    · exact le_max_left 0 _
    · exact max_le (by norm_num) (min_le_left _ _)

lemma cellOf_bounds (d : ℝ) (x : ℤ) : 0 ≤ cellOf d x ∧ cellOf d x ≤ 18 := by
  obtain ⟨h0, h180⟩ := phi_mem_Icc d x
  unfold cellOf
  constructor
  · exact Int.floor_nonneg.mpr (by linarith)
  · calc ⌊phi d x / 10⌋ ≤ ⌊(18 : ℝ)⌋ := Int.floor_le_floor (by linarith)
      _ = 18 := by norm_num

open Classical

/-- The number of swept samples assigned to the main category
(`r > 0`, not below the 0.1 visibility floor, `raw_angle > 3.0`). -/
noncomputable def mainSampleCount (h d : ℝ) : List ℤ → ℕ
  | [] => 0
  | x :: xs =>
    (if 0 < slantRange d x ∧ 0.1 ≤ rawAngle h d x ∧ 3.0 < rawAngle h d x then 1 else 0) +
      mainSampleCount h d xs

/-- The number of swept samples assigned to the side category
(`r > 0`, not below the 0.1 visibility floor, `raw_angle ≤ 3.0`). -/
noncomputable def sideSampleCount (h d : ℝ) : List ℤ → ℕ
  | [] => 0
  | x :: xs =>
    (if 0 < slantRange d x ∧ 0.1 ≤ rawAngle h d x ∧ rawAngle h d x ≤ 3.0 then 1 else 0) +
      sideSampleCount h d xs

lemma mainSampleCount_cons (h d : ℝ) (a : ℤ) (l : List ℤ) :
    mainSampleCount h d (a :: l) =
      (if 0 < slantRange d a ∧ 0.1 ≤ rawAngle h d a ∧ 3.0 < rawAngle h d a then 1 else 0) +
        mainSampleCount h d l := rfl

lemma sideSampleCount_cons (h d : ℝ) (a : ℤ) (l : List ℤ) :
    sideSampleCount h d (a :: l) =
      (if 0 < slantRange d a ∧ 0.1 ≤ rawAngle h d a ∧ rawAngle h d a ≤ 3.0 then 1 else 0) +
        sideSampleCount h d l := rfl

lemma visitTower_skip_r {h d : ℝ} {x : ℤ} (acc : Finset ℤ × Finset ℤ)
    (h1 : slantRange d x ≤ 0) : visitTower h d acc x = acc := by
  unfold visitTower
  rw [if_pos h1]

lemma visitTower_skip_floor {h d : ℝ} {x : ℤ} (acc : Finset ℤ × Finset ℤ)
    (h1 : ¬slantRange d x ≤ 0) (h2 : rawAngle h d x < 0.1) :
    visitTower h d acc x = acc := by
  unfold visitTower
  rw [if_neg h1, if_pos h2]

lemma visitTower_main {h d : ℝ} {x : ℤ} (acc : Finset ℤ × Finset ℤ)
    (h1 : ¬slantRange d x ≤ 0) (h2 : ¬rawAngle h d x < 0.1)
    (h3 : 3.0 < rawAngle h d x) :
    visitTower h d acc x = (insert (cellOf d x) acc.1, acc.2) := by
  unfold visitTower
  rw [if_neg h1, if_neg h2, if_pos h3]

lemma visitTower_side {h d : ℝ} {x : ℤ} (acc : Finset ℤ × Finset ℤ)
    (h1 : ¬slantRange d x ≤ 0) (h2 : ¬rawAngle h d x < 0.1)
    (h3 : ¬3.0 < rawAngle h d x) :
    visitTower h d acc x = (acc.1, insert (cellOf d x) acc.2) := by
  unfold visitTower
  rw [if_neg h1, if_neg h2, if_neg h3]

lemma foldl_visitTower_fst_card (h d : ℝ) (xs : List ℤ) (acc : Finset ℤ × Finset ℤ) :
    (xs.foldl (visitTower h d) acc).1.card ≤ acc.1.card + mainSampleCount h d xs := by
  induction xs generalizing acc with
  | nil => simp [mainSampleCount]
  | cons a l ih =>
    rw [List.foldl_cons, mainSampleCount_cons]
    by_cases h1 : slantRange d a ≤ 0
    · rw [visitTower_skip_r acc h1, if_neg (fun hP => absurd hP.1 (not_lt.mpr h1))]
      simpa using ih acc
    · by_cases h2 : rawAngle h d a < 0.1
      · rw [visitTower_skip_floor acc h1 h2, if_neg (fun hP => absurd hP.2.1 (not_le.mpr h2))]
        simpa using ih acc
      · by_cases h3 : 3.0 < rawAngle h d a
        · rw [visitTower_main acc h1 h2 h3,
            if_pos ⟨not_le.mp h1, not_lt.mp h2, h3⟩]
          refine le_trans (ih _) ?_
          show (insert (cellOf d a) acc.1).card + mainSampleCount h d l ≤
            acc.1.card + (1 + mainSampleCount h d l)
          have := Finset.card_insert_le (cellOf d a) acc.1
          omega
        · rw [visitTower_side acc h1 h2 h3, if_neg (fun hP => h3 hP.2.2)]
          refine le_trans (ih _) ?_
          show acc.1.card + mainSampleCount h d l ≤
            acc.1.card + (0 + mainSampleCount h d l)
          omega

lemma foldl_visitTower_snd_card (h d : ℝ) (xs : List ℤ) (acc : Finset ℤ × Finset ℤ) :
    (xs.foldl (visitTower h d) acc).2.card ≤ acc.2.card + sideSampleCount h d xs := by
  induction xs generalizing acc with
  | nil => simp [sideSampleCount]
  | cons a l ih =>
    rw [List.foldl_cons, sideSampleCount_cons]
    by_cases h1 : slantRange d a ≤ 0
    · rw [visitTower_skip_r acc h1, if_neg (fun hP => absurd hP.1 (not_lt.mpr h1))]
      simpa using ih acc
    · by_cases h2 : rawAngle h d a < 0.1
      · rw [visitTower_skip_floor acc h1 h2, if_neg (fun hP => absurd hP.2.1 (not_le.mpr h2))]
        simpa using ih acc
      · by_cases h3 : 3.0 < rawAngle h d a
        · rw [visitTower_main acc h1 h2 h3, if_neg (fun hP => absurd h3 (not_lt.mpr hP.2.2))]
          refine le_trans (ih _) ?_
          show acc.2.card + sideSampleCount h d l ≤
            acc.2.card + (0 + sideSampleCount h d l)
          omega
        · rw [visitTower_side acc h1 h2 h3,
            if_pos ⟨not_le.mp h1, not_lt.mp h2, not_lt.mp h3⟩]
          refine le_trans (ih _) ?_
          show (insert (cellOf d a) acc.2).card + sideSampleCount h d l ≤
            acc.2.card + (1 + sideSampleCount h d l)
          have := Finset.card_insert_le (cellOf d a) acc.2
          omega

lemma sweepCells_fst_subset (h d : ℝ) (xs : List ℤ) :
    (sweepCells h d xs).1 ⊆ Finset.Icc 0 18 := by
  intro c hc
  obtain ⟨x, -, -, -, -, rfl⟩ := (mem_sweepCells_fst h d xs c).mp hc
  exact Finset.mem_Icc.mpr (cellOf_bounds d x)

lemma sweepCells_snd_subset (h d : ℝ) (xs : List ℤ) :
    (sweepCells h d xs).2 ⊆ Finset.Icc 0 18 := by
  intro c hc
  obtain ⟨x, -, -, -, -, rfl⟩ := (mem_sweepCells_snd h d xs c).mp hc
  exact Finset.mem_Icc.mpr (cellOf_bounds d x)

/-- C4 (amended): under Policy A, for every scenario with positive
tower height, span at least 1 and non-degenerate elevation angle,
every occupied cell index lies in `0..18` (the clamp can put a sample
at exactly 180°, i.e. cell 18), each category's distinct-cell count
never exceeds 19, and it never exceeds the number of samples assigned
to that category. -/
theorem sweep_cells_bounds (h s θ : ℝ) (hh : 0 < h) (hs : 1 ≤ s)
    (hdeg : 1e-12 ≤ |Real.tan (radians θ)|) :
    (∀ c ∈ (sweepCells h (h / Real.tan (radians θ)) (sweepOffsets (intTrunc s))).1,
        0 ≤ c ∧ c ≤ 18) ∧
    (∀ c ∈ (sweepCells h (h / Real.tan (radians θ)) (sweepOffsets (intTrunc s))).2,
        0 ≤ c ∧ c ≤ 18) ∧
    (sweepCells h (h / Real.tan (radians θ)) (sweepOffsets (intTrunc s))).1.card ≤ 19 ∧
    (sweepCells h (h / Real.tan (radians θ)) (sweepOffsets (intTrunc s))).2.card ≤ 19 ∧
    (sweepCells h (h / Real.tan (radians θ)) (sweepOffsets (intTrunc s))).1.card ≤
      mainSampleCount h (h / Real.tan (radians θ)) (sweepOffsets (intTrunc s)) ∧
    (sweepCells h (h / Real.tan (radians θ)) (sweepOffsets (intTrunc s))).2.card ≤
      sideSampleCount h (h / Real.tan (radians θ)) (sweepOffsets (intTrunc s)) := by
  have hIcc : (Finset.Icc (0 : ℤ) 18).card = 19 := by
    rw [Int.card_Icc]
    rfl
  refine ⟨?_, ?_, ?_, ?_, ?_, ?_⟩
  · intro c hc
    exact Finset.mem_Icc.mp (sweepCells_fst_subset _ _ _ hc)
  · intro c hc
    exact Finset.mem_Icc.mp (sweepCells_snd_subset _ _ _ hc)
  · rw [← hIcc]
    exact Finset.card_le_card (sweepCells_fst_subset _ _ _)
  · rw [← hIcc]
    exact Finset.card_le_card (sweepCells_snd_subset _ _ _)
  · simpa using foldl_visitTower_fst_card h (h / Real.tan (radians θ))
      (sweepOffsets (intTrunc s)) (∅, ∅)
  · simpa using foldl_visitTower_snd_card h (h / Real.tan (radians θ))
      (sweepOffsets (intTrunc s)) (∅, ∅)

/-- Witness for the amended C4: the scenario (50, 8000, 45°). -/
theorem sweep_cells_bounds_witness :
    (∀ c ∈ (sweepCells 50 (50 / Real.tan (radians 45)) (sweepOffsets (intTrunc 8000))).1,
        0 ≤ c ∧ c ≤ 18) ∧
    (∀ c ∈ (sweepCells 50 (50 / Real.tan (radians 45)) (sweepOffsets (intTrunc 8000))).2,
        0 ≤ c ∧ c ≤ 18) ∧
    (sweepCells 50 (50 / Real.tan (radians 45)) (sweepOffsets (intTrunc 8000))).1.card ≤ 19 ∧
    (sweepCells 50 (50 / Real.tan (radians 45)) (sweepOffsets (intTrunc 8000))).2.card ≤ 19 ∧
    (sweepCells 50 (50 / Real.tan (radians 45)) (sweepOffsets (intTrunc 8000))).1.card ≤
      mainSampleCount 50 (50 / Real.tan (radians 45)) (sweepOffsets (intTrunc 8000)) ∧
    (sweepCells 50 (50 / Real.tan (radians 45)) (sweepOffsets (intTrunc 8000))).2.card ≤
      sideSampleCount 50 (50 / Real.tan (radians 45)) (sweepOffsets (intTrunc 8000)) :=
  sweep_cells_bounds 50 8000 45 (by norm_num) (by norm_num)
    (by rw [radians_fortyfive, Real.tan_pi_div_four]; norm_num)

lemma arctan_lt_of_lt_tan {q t : ℝ} (ht1 : -(Real.pi/2) < t) (ht2 : t < Real.pi/2)
    (h : q < Real.tan t) : Real.arctan q < t := by
  have := Real.arctan_strictMono h
  rwa [Real.arctan_tan ht1 ht2] at this

lemma lt_arctan_of_tan_lt {q t : ℝ} (ht1 : -(Real.pi/2) < t) (ht2 : t < Real.pi/2)
    (h : Real.tan t < q) : t < Real.arctan q := by
  have := Real.arctan_strictMono h
  rwa [Real.arctan_tan ht1 ht2] at this

lemma le_arctan_of_tan_le {q t : ℝ} (ht1 : -(Real.pi/2) < t) (ht2 : t < Real.pi/2)
    (h : Real.tan t ≤ q) : t ≤ Real.arctan q := by
  rcases eq_or_lt_of_le h with he | hlt
  · rw [← he, Real.arctan_tan ht1 ht2]
  · exact (lt_arctan_of_tan_lt ht1 ht2 hlt).le

lemma sin_lower_est {x a : ℝ} (hx0 : 0 ≤ x) (hx : x ≤ 1)
    (h : a ≤ x - x^3/6 - x^4 * (5/96)) : a ≤ Real.sin x := by
  have hb := Real.sin_bound (by rw [abs_of_nonneg hx0]; exact hx)
  rw [abs_of_nonneg hx0] at hb
  have := (abs_le.mp hb).1
  linarith

lemma sin_upper_est {x a : ℝ} (hx0 : 0 ≤ x) (hx : x ≤ 1)
    (h : x - x^3/6 + x^4 * (5/96) ≤ a) : Real.sin x ≤ a := by
  have hb := Real.sin_bound (by rw [abs_of_nonneg hx0]; exact hx)
  rw [abs_of_nonneg hx0] at hb
  have := (abs_le.mp hb).2
  linarith

lemma cos_lower_est {x a : ℝ} (hx0 : 0 ≤ x) (hx : x ≤ 1)
    (h : a ≤ 1 - x^2/2 - x^4 * (5/96)) : a ≤ Real.cos x := by
  have hb := Real.cos_bound (by rw [abs_of_nonneg hx0]; exact hx)
  rw [abs_of_nonneg hx0] at hb
  have := (abs_le.mp hb).1
  linarith

lemma cos_upper_est {x a : ℝ} (hx0 : 0 ≤ x) (hx : x ≤ 1)
    (h : 1 - x^2/2 + x^4 * (5/96) ≤ a) : Real.cos x ≤ a := by
  have hb := Real.cos_bound (by rw [abs_of_nonneg hx0]; exact hx)
  rw [abs_of_nonneg hx0] at hb
  have := (abs_le.mp hb).2
  linarith

lemma tan_le_est {x su cl : ℝ} (hsu0 : 0 ≤ su) (hsu : Real.sin x ≤ su)
    (hcl : 0 < cl) (hclc : cl ≤ Real.cos x) : Real.tan x ≤ su / cl := by
  rw [Real.tan_eq_sin_div_cos]
  exact div_le_div hsu0 hsu hcl hclc

lemma le_tan_est {x sl cu : ℝ} (hsl0 : 0 ≤ sl) (hsl : sl ≤ Real.sin x)
    (hc0 : 0 < Real.cos x) (hcu : Real.cos x ≤ cu) : sl / cu ≤ Real.tan x := by
  rw [Real.tan_eq_sin_div_cos]
  exact div_le_div (le_trans hsl0 hsl) hsl hc0 hcu

lemma arctan_forty_thirds_gt : 17 * Real.pi / 36 < Real.arctan (40/3) := by
  have hpi := Real.pi_pos
  have hgt := Real.pi_gt_three
  have h36 : Real.pi / 36 < Real.tan (Real.pi / 36) :=
    Real.lt_tan (by positivity) (by linarith)
  have heq : Real.tan (17 * Real.pi / 36) = (Real.tan (Real.pi / 36))⁻¹ := by
    have he : (17 : ℝ) * Real.pi / 36 = Real.pi / 2 - Real.pi / 36 := by ring
    rw [he, Real.tan_pi_div_two_sub]
  have htpos : 0 < Real.tan (Real.pi / 36) := lt_trans (by positivity) h36
  have hinv : (Real.tan (Real.pi / 36))⁻¹ < (Real.pi / 36)⁻¹ :=
    inv_lt_inv_of_lt (by positivity) h36
  have hfin : (Real.pi / 36)⁻¹ < 40 / 3 := by
    rw [inv_div]
    rw [div_lt_div_iff hpi (by norm_num)]
    nlinarith
  refine lt_arctan_of_tan_lt (by linarith) (by linarith) ?_
  rw [heq]
  linarith

lemma phi_clamped_4000 : phi 300 4000 = 180 := by
  have hcalc : (85 : ℝ) ≤ phiCalc 300 4000 := by
    unfold phiCalc degrees
    have habs : |((4000 : ℤ) : ℝ)| / 300 = 40 / 3 := by norm_num
    rw [habs, le_div_iff Real.pi_pos]
    nlinarith [arctan_forty_thirds_gt]
  unfold phi
  rw [if_neg (by omega)]
  unfold phiPre
  rw [if_pos (by omega)]
  rw [min_eq_left (by linarith)]
  exact max_eq_right (by norm_num)

lemma cellOf_4000 : cellOf 300 4000 = 18 := by
  unfold cellOf
  rw [phi_clamped_4000]
  norm_num

lemma slantRange_300_4000 : slantRange 300 4000 = Real.sqrt 16090000 := by
  unfold slantRange
  norm_num

lemma sqrt_16090000_le : Real.sqrt 16090000 ≤ 4012 := by
  have h : (4012 : ℝ) = Real.sqrt (4012 ^ 2) := (Real.sqrt_sq (by norm_num)).symm
  rw [h]
  exact Real.sqrt_le_sqrt (by norm_num)

lemma rawAngle_4000_ge : 0.1 ≤ rawAngle 300 300 4000 := by
  have hpi := Real.pi_pos
  have hpiu := Real.pi_lt_d2
  have hrle := sqrt_16090000_le
  have hrpos : 0 < Real.sqrt 16090000 := Real.sqrt_pos.mpr (by norm_num)
  have hx0 : (0 : ℝ) ≤ Real.pi / 1800 := by positivity
  have hxu : Real.pi / 1800 ≤ 0.00175 := by linarith
  have hsin : Real.sin (Real.pi / 1800) ≤ 0.00175 :=
    le_trans (Real.sin_lt (by positivity)).le hxu
  have hcos : (0.99 : ℝ) ≤ Real.cos (Real.pi / 1800) := by
    refine cos_lower_est hx0 (by linarith) ?_
    nlinarith [pow_le_pow_left hx0 hxu 2, pow_le_pow_left hx0 hxu 4]
  have htan : Real.tan (Real.pi / 1800) ≤ 0.00175 / 0.99 :=
    tan_le_est (by norm_num) hsin (by norm_num) hcos
  have hq : (300 : ℝ) / 4012 ≤ 300 / Real.sqrt 16090000 :=
    div_le_div (by norm_num) (le_refl _) hrpos hrle
  have harc : Real.pi / 1800 ≤ Real.arctan (300 / Real.sqrt 16090000) := by
    refine le_arctan_of_tan_le (by linarith) (by linarith) ?_
    calc Real.tan (Real.pi / 1800) ≤ 0.00175 / 0.99 := htan
      _ ≤ 300 / 4012 := by norm_num
      _ ≤ 300 / Real.sqrt 16090000 := hq
  unfold rawAngle degrees
  rw [slantRange_300_4000, le_div_iff hpi]
  nlinarith [harc]

/-- C4 is refuted: in the scenario towerHeight = 300, span = 8000,
elevationAngle = 45° (positive height, span ≥ 1, non-degenerate
tangent), the sample at offset 4000 is retained and its clamped
horizontal angle is exactly 180°, so the occupied cell 18 — outside
the claimed range 0..17 — lands in one of the two category sets. -/
theorem occupied_cell_outside_claimed_range :
    (0 : ℝ) < 300 ∧ (1 : ℝ) ≤ 8000 ∧
    1e-12 ≤ |Real.tan (radians 45)| ∧
    (18 ∈ (sweepCells 300 (300 / Real.tan (radians 45)) (sweepOffsets (intTrunc 8000))).1 ∨
     18 ∈ (sweepCells 300 (300 / Real.tan (radians 45)) (sweepOffsets (intTrunc 8000))).2) ∧
    (18 : ℤ) ∉ Finset.Icc (0 : ℤ) 17 := by
  have hd : (300 : ℝ) / Real.tan (radians 45) = 300 := by
    rw [radians_fortyfive, Real.tan_pi_div_four]
    norm_num
  have hoff : sweepOffsets (intTrunc 8000) = [-4000, 4000] := by
    have h8 : intTrunc (8000 : ℝ) = 8000 := by
      rw [intTrunc_nonneg_eq_floor (by norm_num)]
      norm_num
    rw [h8]
    decide
  refine ⟨by norm_num, by norm_num, ?_, ?_, by decide⟩
  · rw [radians_fortyfive, Real.tan_pi_div_four]
    norm_num
  · rw [hd, hoff]
    unfold sweepCells
    rw [List.foldl_cons, List.foldl_cons, List.foldl_nil]
    have h1 : ¬slantRange 300 4000 ≤ 0 := by
      rw [slantRange_300_4000]
      exact not_le.mpr (Real.sqrt_pos.mpr (by norm_num))
    have h2 : ¬rawAngle 300 300 4000 < 0.1 := not_lt.mpr rawAngle_4000_ge
    by_cases h3 : 3.0 < rawAngle 300 300 4000
    · left
      rw [visitTower_main _ h1 h2 h3, cellOf_4000]
      exact Finset.mem_insert_self 18 _
    · right
      rw [visitTower_side _ h1 h2 h3, cellOf_4000]
      exact Finset.mem_insert_self 18 _

lemma degrees_arctan_lt {q c : ℝ} (h : Real.arctan q < c * Real.pi / 180) :
    degrees (Real.arctan q) < c := by
  unfold degrees
  rw [div_lt_iff Real.pi_pos]
  linarith

lemma lt_degrees_arctan {q c : ℝ} (h : c * Real.pi / 180 < Real.arctan q) :
    c < degrees (Real.arctan q) := by
  unfold degrees
  rw [lt_div_iff Real.pi_pos]
  linarith

lemma tan_radians_five_bounds :
    0.0874847 ≤ Real.tan (radians 5) ∧ Real.tan (radians 5) ≤ 0.0874925 := by
  rw [radians_five]
  have hpl := Real.pi_gt_d6
  have hpu := Real.pi_lt_d6
  have hxl : (0.0872664 : ℝ) ≤ Real.pi / 36 := by linarith
  have hxu : Real.pi / 36 ≤ 0.0872665 := by linarith
  have hx0 : (0 : ℝ) ≤ Real.pi / 36 := by linarith
  have h2 := pow_le_pow_left hx0 hxu 2
  have h3 := pow_le_pow_left hx0 hxu 3
  have h4 := pow_le_pow_left hx0 hxu 4
  have h2l := pow_le_pow_left (by norm_num : (0:ℝ) ≤ 0.0872664) hxl 2
  have h3l := pow_le_pow_left (by norm_num : (0:ℝ) ≤ 0.0872664) hxl 3
  have hsl : (0.087152 : ℝ) ≤ Real.sin (Real.pi / 36) :=
    sin_lower_est hx0 (by linarith) (by nlinarith)
  have hsu : Real.sin (Real.pi / 36) ≤ 0.0871589 :=
    sin_upper_est hx0 (by linarith) (by nlinarith)
  have hcl : (0.996189 : ℝ) ≤ Real.cos (Real.pi / 36) :=
    cos_lower_est hx0 (by linarith) (by nlinarith)
  have hcu : Real.cos (Real.pi / 36) ≤ 0.9961954 :=
    cos_upper_est hx0 (by linarith) (by nlinarith)
  constructor
  · calc (0.0874847 : ℝ) ≤ 0.087152 / 0.9961954 := by norm_num
      _ ≤ Real.tan (Real.pi / 36) := le_tan_est (by norm_num) hsl (by linarith) hcu
  · calc Real.tan (Real.pi / 36) ≤ 0.0871589 / 0.996189 :=
        tan_le_est (by norm_num) hsu (by norm_num) hcl
      _ ≤ 0.0874925 := by norm_num

lemma d_five_bounds :
    571.477 ≤ 50 / Real.tan (radians 5) ∧ 50 / Real.tan (radians 5) ≤ 571.529 := by
  obtain ⟨htl, htu⟩ := tan_radians_five_bounds
  have ht0 : (0 : ℝ) < Real.tan (radians 5) := by linarith
  constructor
  · calc (571.477 : ℝ) ≤ 50 / 0.0874925 := by norm_num
      _ ≤ 50 / Real.tan (radians 5) := div_le_div (by norm_num) (le_refl _) ht0 htu
  · calc 50 / Real.tan (radians 5) ≤ 50 / 0.0874847 :=
        div_le_div (by norm_num) (le_refl _) (by norm_num) htl
      _ ≤ 571.529 := by norm_num

lemma slantRange_five_500 : slantRange (50 / Real.tan (radians 5)) 500
    = Real.sqrt ((50 / Real.tan (radians 5)) ^ 2 + 250000) := by
  unfold slantRange
  norm_num

lemma r_five_500_bounds :
    759.33 ≤ slantRange (50 / Real.tan (radians 5)) 500 ∧
    slantRange (50 / Real.tan (radians 5)) 500 ≤ 759.372 := by
  obtain ⟨hdl, hdu⟩ := d_five_bounds
  rw [slantRange_five_500]
  constructor
  · rw [show (759.33 : ℝ) = Real.sqrt (759.33 ^ 2) from (Real.sqrt_sq (by norm_num)).symm]
    exact Real.sqrt_le_sqrt (by nlinarith)
  · rw [show (759.372 : ℝ) = Real.sqrt (759.372 ^ 2) from (Real.sqrt_sq (by norm_num)).symm]
    exact Real.sqrt_le_sqrt (by nlinarith)

lemma q_five_500_bounds :
    0.065843 ≤ 50 / slantRange (50 / Real.tan (radians 5)) 500 ∧
    50 / slantRange (50 / Real.tan (radians 5)) 500 ≤ 0.065848 := by
  obtain ⟨hrl, hru⟩ := r_five_500_bounds
  have hr0 : (0 : ℝ) < slantRange (50 / Real.tan (radians 5)) 500 := by linarith
  constructor
  · calc (0.065843 : ℝ) ≤ 50 / 759.372 := by norm_num
      _ ≤ 50 / slantRange (50 / Real.tan (radians 5)) 500 :=
        div_le_div (by norm_num) (le_refl _) hr0 hru
  · calc 50 / slantRange (50 / Real.tan (radians 5)) 500 ≤ 50 / 759.33 :=
        div_le_div (by norm_num) (le_refl _) (by norm_num) hrl
      _ ≤ 0.065848 := by norm_num

lemma rawAngle_five_500_lt : rawAngle 50 (50 / Real.tan (radians 5)) 500 < 3.769 := by
  have hpl := Real.pi_gt_d6
  have hpu := Real.pi_lt_d6
  obtain ⟨hql, hqu⟩ := q_five_500_bounds
  have htl : (0.0657814 : ℝ) ≤ 3.769 * Real.pi / 180 := by linarith
  have htu : 3.769 * Real.pi / 180 ≤ 0.0657815 := by linarith
  have ht0 : (0 : ℝ) ≤ 3.769 * Real.pi / 180 := by linarith
  have h3 := pow_le_pow_left ht0 htu 3
  have h4 := pow_le_pow_left ht0 htu 4
  have h2 := pow_le_pow_left ht0 htu 2
  have h2l := pow_le_pow_left (by norm_num : (0:ℝ) ≤ 0.0657814) htl 2
  have hsl : (0.0657329 : ℝ) ≤ Real.sin (3.769 * Real.pi / 180) :=
    sin_lower_est ht0 (by linarith) (by nlinarith)
  have hcu : Real.cos (3.769 * Real.pi / 180) ≤ 0.9978374 :=
    cos_upper_est ht0 (by linarith) (by nlinarith)
  have hcl : (0.997 : ℝ) ≤ Real.cos (3.769 * Real.pi / 180) :=
    cos_lower_est ht0 (by linarith) (by nlinarith)
  have htan : (0.0657329 : ℝ) / 0.9978374 ≤ Real.tan (3.769 * Real.pi / 180) :=
    le_tan_est (by norm_num) hsl (by linarith) hcu
  unfold rawAngle
  refine degrees_arctan_lt (arctan_lt_of_lt_tan (by linarith) (by linarith) ?_)
  calc 50 / slantRange (50 / Real.tan (radians 5)) 500 ≤ 0.065848 := hqu
    _ < 0.0657329 / 0.9978374 := by norm_num
    _ ≤ Real.tan (3.769 * Real.pi / 180) := htan

lemma rawAngle_five_500_gt : 3.765 < rawAngle 50 (50 / Real.tan (radians 5)) 500 := by
  have hpl := Real.pi_gt_d6
  have hpu := Real.pi_lt_d6
  obtain ⟨hql, hqu⟩ := q_five_500_bounds
  have htl : (0.0657116 : ℝ) ≤ 3.765 * Real.pi / 180 := by linarith
  have htu : 3.765 * Real.pi / 180 ≤ 0.0657117 := by linarith
  have ht0 : (0 : ℝ) ≤ 3.765 * Real.pi / 180 := by linarith
  have h3 := pow_le_pow_left ht0 htu 3
  have h4 := pow_le_pow_left ht0 htu 4
  have h2 := pow_le_pow_left ht0 htu 2
  have h3l := pow_le_pow_left (by norm_num : (0:ℝ) ≤ 0.0657116) htl 3
  have hsu : Real.sin (3.765 * Real.pi / 180) ≤ 0.0656654 :=
    sin_upper_est ht0 (by linarith) (by nlinarith)
  have hcl : (0.99783 : ℝ) ≤ Real.cos (3.765 * Real.pi / 180) :=
    cos_lower_est ht0 (by linarith) (by nlinarith)
  have htan : Real.tan (3.765 * Real.pi / 180) ≤ (0.0656654 : ℝ) / 0.99783 :=
    tan_le_est (by norm_num) hsu (by norm_num) hcl
  unfold rawAngle
  refine lt_degrees_arctan (lt_arctan_of_tan_lt (by linarith) (by linarith) ?_)
  calc Real.tan (3.765 * Real.pi / 180) ≤ 0.0656654 / 0.99783 := htan
    _ < 0.065843 := by norm_num
    _ ≤ 50 / slantRange (50 / Real.tan (radians 5)) 500 := hql

lemma slantRange_five_0 :
    slantRange (50 / Real.tan (radians 5)) 0 = 50 / Real.tan (radians 5) := by
  have hd0 : (0 : ℝ) ≤ 50 / Real.tan (radians 5) := by linarith [d_five_bounds.1]
  unfold slantRange
  have hsq : (50 / Real.tan (radians 5)) ^ 2 + (((0 : ℤ) : ℝ)) ^ 2
      = (50 / Real.tan (radians 5)) ^ 2 := by
    push_cast
    ring
  rw [hsq, Real.sqrt_sq hd0]

lemma rawAngle_five_0 : rawAngle 50 (50 / Real.tan (radians 5)) 0 = 5 := by
  have hpi := Real.pi_pos
  have ht0 : (0 : ℝ) < Real.tan (radians 5) := by linarith [tan_radians_five_bounds.1]
  unfold rawAngle
  rw [slantRange_five_0]
  have hq : (50 : ℝ) / (50 / Real.tan (radians 5)) = Real.tan (radians 5) := by
    field_simp
  rw [hq, radians_five, Real.arctan_tan (by linarith) (by linarith)]
  unfold degrees
  field_simp
  ring

lemma mem_offets_100_500 : (500 : ℤ) ∈ sweepOffsets (intTrunc 100) := by
  refine (mem_sweepOffsets (intTrunc_ge_one (by norm_num))).mpr ⟨⟨45, ?_⟩, by norm_num⟩
  rw [intTrunc_nonneg_eq_floor (by norm_num)]
  norm_num

lemma mem_offets_100_0 : (0 : ℤ) ∈ sweepOffsets (intTrunc 100) := by
  refine (mem_sweepOffsets (intTrunc_ge_one (by norm_num))).mpr ⟨⟨40, ?_⟩, by norm_num⟩
  rw [intTrunc_nonneg_eq_floor (by norm_num)]
  norm_num

/-- C9 is refuted in its stated tolerance: in the scenario
towerHeight = 50, span = 100, elevationAngle = 5, the enumerated
sample at offset 500 has a vertical angle strictly below 3.769°, so it
is NOT within 1e-3 degrees of 3.77 (the true value is ≈ 3.7672°). -/
theorem vertical_angle_500_outside_tolerance :
    (500 : ℤ) ∈ sweepOffsets (intTrunc 100) ∧
    1e-3 < |rawAngle 50 (50 / Real.tan (radians 5)) 500 - 3.77| := by
  refine ⟨mem_offets_100_500, ?_⟩
  have hlt := rawAngle_five_500_lt
  calc (1e-3 : ℝ) < -(rawAngle 50 (50 / Real.tan (radians 5)) 500 - 3.77) := by linarith
    _ ≤ |rawAngle 50 (50 / Real.tan (radians 5)) 500 - 3.77| := neg_le_abs _

/-- C9 (amended): in the scenario towerHeight = 50, span = 100,
elevationAngle = 5: the baseline is within 0.15 of 571.6; the sample
at offset 0 has vertical angle exactly 5 (hence within 1e-3 of 5.0),
is retained in the main category and is pinned at horizontal angle 95;
the sample at offset 500 has slant range within 0.1 of 759.4 and
vertical angle within 5e-3 (not 1e-3) of 3.77, and is retained in the
main category. -/
theorem concrete_scenario_values :
    |50 / Real.tan (radians 5) - 571.6| < 0.15 ∧
    (0 : ℤ) ∈ sweepOffsets (intTrunc 100) ∧
    rawAngle 50 (50 / Real.tan (radians 5)) 0 = 5 ∧
    |rawAngle 50 (50 / Real.tan (radians 5)) 0 - 5.0| < 1e-3 ∧
    phi (50 / Real.tan (radians 5)) 0 = 95 ∧
    0 < slantRange (50 / Real.tan (radians 5)) 0 ∧
    0.1 ≤ rawAngle 50 (50 / Real.tan (radians 5)) 0 ∧
    3.0 < rawAngle 50 (50 / Real.tan (radians 5)) 0 ∧
    (500 : ℤ) ∈ sweepOffsets (intTrunc 100) ∧
    |slantRange (50 / Real.tan (radians 5)) 500 - 759.4| < 0.1 ∧
    |rawAngle 50 (50 / Real.tan (radians 5)) 500 - 3.77| < 5e-3 ∧
    0 < slantRange (50 / Real.tan (radians 5)) 500 ∧
    0.1 ≤ rawAngle 50 (50 / Real.tan (radians 5)) 500 ∧
    3.0 < rawAngle 50 (50 / Real.tan (radians 5)) 500 := by
  obtain ⟨hdl, hdu⟩ := d_five_bounds
  obtain ⟨hrl, hru⟩ := r_five_500_bounds
  have hv0 := rawAngle_five_0
  have hvl := rawAngle_five_500_lt
  have hvg := rawAngle_five_500_gt
  refine ⟨?_, mem_offets_100_0, hv0, ?_, ?_, ?_, ?_, ?_, mem_offets_100_500, ?_, ?_, ?_, ?_, ?_⟩
  · rw [abs_lt]
    constructor <;> linarith
  · rw [hv0]
    norm_num
  · unfold phi
    norm_num
  · rw [slantRange_five_0]
    linarith
  · rw [hv0]
    norm_num
  · rw [hv0]
    norm_num
  · rw [abs_lt]
    constructor <;> linarith
  · rw [abs_lt]
    constructor <;> linarith
  · linarith
  · linarith
  · linarith

/-- Witness for C2: the boundary magnitudes 15 and 16. -/
theorem triggers_intermediate_iff_witness :
    triggers_intermediate 16 = true ∧ triggers_intermediate 15 = false :=
  ⟨((triggers_intermediate_iff 16).1).mpr (by norm_num),
   (triggers_intermediate_iff 15).2.1⟩
